import Mathlib

/-!
Verification development for the pooltool/psim event-driven billiards engine.

The engine (`psim/engine.py`) is embedded shallowly: balls, rails, events and
histories become Lean structures over `ℚ`; `np.inf`-valued times become
`WithTop ℚ`.  The physics kernel (`psim.physics`) is a separate module that is
not part of the engine source; the engine calls it through a fixed interface,
so it is embedded as a `Physics` record of opaque functions and every theorem
quantifies over it (behaviour the spec promises of the kernel, such as the
stationary regime being the identity, appears as an explicitly named
hypothesis).  Loops of the engine become fuel-indexed structural recursions;
a run of the Python loop corresponds to any sufficiently large fuel.
-/

/-- Times as used by the engine: nonnegative floats together with `np.inf`. -/
abbrev Time := WithTop ℚ

/-- A 3-vector of rationals (a row of the `rvw` block). -/
structure Vec3 where
  x : ℚ
  y : ℚ
  z : ℚ
deriving DecidableEq, Repr

/-- The 4×3 kinematic state block of one ball: position `r`, linear velocity
`v`, angular velocity `w`, and the cumulative angular-displacement row. -/
structure Rvw where
  r : Vec3
  v : Vec3
  w : Vec3
  a : Vec3
deriving DecidableEq, Repr

/-- Motion state constants of `psim` used by the engine
(`psim.stationary`, `psim.sliding`, `psim.rolling`, `psim.spinning`). -/
inductive BState where
  | stationary
  | sliding
  | rolling
  | spinning
deriving DecidableEq, Repr

/-- A ball as the engine reads it: identity, radius, mass, motion state and
kinematic block.  `Ball.set` of the source is a record update. -/
structure Ball where
  id : ℕ
  R : ℚ
  m : ℚ
  s : BState
  rvw : Rvw
deriving DecidableEq, Repr

/-- A rail record with exactly the fields the engine reads
(`rail.lx/ly/l0/normal/height/id`). -/
structure Rail where
  id : ℕ
  lx : ℚ
  ly : ℚ
  l0 : ℚ
  normal : Vec3
  height : ℚ
deriving DecidableEq, Repr

/-- The table as the engine reads it: friction coefficients and the ordered
rail collection (`self.table.rails.values()` iterates in insertion order,
which a list preserves). -/
structure Table where
  u_s : ℚ
  u_r : ℚ
  u_sp : ℚ
  rails : List Rail
deriving DecidableEq, Repr

/-- An entry of an event's `agents` tuple: a ball id, a rail id, or Python's
`None` placeholder used by the generators before any candidate is found. -/
inductive Agent where
  | ball (id : ℕ)
  | rail (id : ℕ)
  | nullA
deriving DecidableEq, Repr

/-- The string event types of the engine (`event_type` is `None` or one of
these strings; the `None` case is `Option.none` at the use sites). -/
inductive EventType where
  | endSlide
  | endRoll
  | endSpin
  | ballBall
  | ballRail
deriving DecidableEq, Repr

/-- `Event(event_type, agents, tau)` of the engine. -/
structure Event where
  event_type : Option EventType
  agents : List Agent
  tau : Time
deriving DecidableEq, Repr

/-- The physics-kernel interface exactly as the engine calls it
(`psim.physics` is outside the engine source, so its functions are opaque
parameters here; argument order follows the call sites in `engine.py`). -/
structure Physics where
  evolve_ball_motion : BState → Rvw → ℚ → ℚ → ℚ → ℚ → ℚ → ℚ → Time → Rvw × BState
  get_roll_time : Rvw → ℚ → ℚ → Time
  get_slide_time : Rvw → ℚ → ℚ → ℚ → Time
  get_spin_time : Rvw → ℚ → ℚ → ℚ → Time
  get_ball_ball_collision_time :
    Rvw → Rvw → BState → BState → ℚ → ℚ → ℚ → ℚ → ℚ → ℚ → Time
  get_ball_rail_collision_time :
    Rvw → BState → ℚ → ℚ → ℚ → ℚ → ℚ → ℚ → ℚ → Time
  resolve_ball_ball_collision : Rvw → Rvw → Rvw × Rvw
  resolve_ball_rail_collision : Rvw → Vec3 → ℚ → ℚ → ℚ → Rvw

/-- `ShotSimulation.get_min_motion_event_time`: fold of the per-ball loop.
Stationary balls are skipped (`continue`); otherwise the regime's
time-to-transition is queried and a strictly smaller `tau` takes the lead. -/
def get_min_motion_event_time (phys : Physics) (g : ℚ) (table : Table)
    (balls : List Ball) : Time × List Agent × Option EventType :=
  let acc := balls.foldl
    (fun (acc : Time × Agent × Option EventType) ball =>
      match ball.s with
      | BState.stationary => acc
      | BState.rolling =>
          let tau := phys.get_roll_time ball.rvw table.u_r g
          if tau < acc.1 then (tau, Agent.ball ball.id, some EventType.endRoll) else acc
      | BState.sliding =>
          let tau := phys.get_slide_time ball.rvw ball.R table.u_s g
          if tau < acc.1 then (tau, Agent.ball ball.id, some EventType.endSlide) else acc
      | BState.spinning =>
          let tau := phys.get_spin_time ball.rvw ball.R table.u_sp g
          if tau < acc.1 then (tau, Agent.ball ball.id, some EventType.endSpin) else acc)
    (⊤, Agent.nullA, none)
  (acc.1, [acc.2.1], acc.2.2)

/-- The collision time the ball-ball generator queries for a given pair,
with the friction coefficient chosen by each ball's state. -/
def bbTau (phys : Physics) (g : ℚ) (table : Table) (b1 b2 : Ball) : Time :=
  phys.get_ball_ball_collision_time b1.rvw b2.rvw b1.s b2.s
    (if b1.s = BState.sliding then table.u_s else table.u_r)
    (if b2.s = BState.sliding then table.u_s else table.u_r)
    b1.m b2.m g b1.R

/-- `ShotSimulation.get_min_ball_ball_event_time`: the doubly-enumerated loop
with its two `continue` guards (`i >= j`, and both balls stationary). -/
def get_min_ball_ball_event_time (phys : Physics) (g : ℚ) (table : Table)
    (balls : List Ball) : Time × List Agent :=
  (balls.enum).foldl
    (fun acc0 p1 =>
      (balls.enum).foldl
        (fun (acc : Time × List Agent) p2 =>
          if p2.1 ≤ p1.1 then acc
          else if p1.2.s = BState.stationary ∧ p2.2.s = BState.stationary then acc
          else
            let tau := bbTau phys g table p1.2 p2.2
            if tau < acc.1 then (tau, [Agent.ball p1.2.id, Agent.ball p2.2.id]) else acc)
        acc0)
    (⊤, ([] : List Agent))

/-- The collision time the ball-rail generator queries for a ball and a rail. -/
def brTau (phys : Physics) (g : ℚ) (table : Table) (ball : Ball) (rail : Rail) : Time :=
  phys.get_ball_rail_collision_time ball.rvw ball.s rail.lx rail.ly rail.l0
    (if ball.s = BState.sliding then table.u_s else table.u_r)
    ball.m g ball.R

/-- `ShotSimulation.get_min_ball_rail_event_time`: skip stationary balls,
then scan every rail for each remaining ball. -/
def get_min_ball_rail_event_time (phys : Physics) (g : ℚ) (table : Table)
    (balls : List Ball) : Time × List Agent :=
  balls.foldl
    (fun acc0 ball =>
      if ball.s = BState.stationary then acc0
      else
        table.rails.foldl
          (fun (acc : Time × List Agent) rail =>
            let tau := brTau phys g table ball rail
            if tau < acc.1 then (tau, [Agent.ball ball.id, Agent.rail rail.id]) else acc)
          acc0)
    (⊤, [Agent.nullA, Agent.nullA])

/-- `ShotSimulation.get_next_event`: query the three generators in their fixed
declaration order, keeping a candidate only when its `tau` is strictly smaller
than the best so far (so exact ties keep the earlier generator's event). -/
def get_next_event (phys : Physics) (g : ℚ) (table : Table)
    (balls : List Ball) : Event :=
  let tau_min : Time := ⊤
  let agents : List Agent := []
  let event_type : Option EventType := none
  let mot := get_min_motion_event_time phys g table balls
  let st1 :=
    if mot.1 < tau_min then (mot.1, mot.2.2, mot.2.1) else (tau_min, event_type, agents)
  let bb := get_min_ball_ball_event_time phys g table balls
  let st2 :=
    if bb.1 < st1.1 then (bb.1, some EventType.ballBall, bb.2) else st1
  let br := get_min_ball_rail_event_time phys g table balls
  let st3 :=
    if br.1 < st2.1 then (br.1, some EventType.ballRail, br.2) else st2
  ⟨st3.2.1, st3.2.2, st3.1⟩

/-- `self.balls[ball_id] = ...` / `ball.set(rvw, s)`: the dict holds one ball
per id, so assignment through the id updates exactly the matching entries. -/
def setBall (balls : List Ball) (id : ℕ) (rvw : Rvw) (s : BState) : List Ball :=
  balls.map fun b => if b.id = id then { b with rvw := rvw, s := s } else b

/-- `self.balls[ball_id]`: dict lookup by id (first match in insertion
order; a missing key, which raises in Python, yields `none`). -/
def getBall (balls : List Ball) (id : ℕ) : Option Ball :=
  balls.find? fun b => b.id = id

/-- `self.table.rails[rail_id]`: dict lookup of a rail by id. -/
def getRail (table : Table) (id : ℕ) : Option Rail :=
  table.rails.find? fun r => r.id = id

/-- `ShotSimulation.resolve`: dispatch on `event_type`.  A `None` type
returns immediately; `'ball-ball'` resolves both agent balls and resets them
to sliding; `'ball-rail'` resolves the agent ball against the rail and resets
it to sliding; the motion-transition strings match no branch and fall
through.  The lookup-failure branches (which raise in Python) leave the dict
unchanged. -/
def resolve (phys : Physics) (table : Table) (event : Event)
    (balls : List Ball) : List Ball :=
  match event.event_type with
  | none => balls
  | some EventType.ballBall =>
    match event.agents with
    | [Agent.ball id1, Agent.ball id2] =>
      match getBall balls id1, getBall balls id2 with
      | some b1, some b2 =>
        let res := phys.resolve_ball_ball_collision b1.rvw b2.rvw
        setBall (setBall balls id1 res.1 BState.sliding) id2 res.2 BState.sliding
      | _, _ => balls
    | _ => balls
  | some EventType.ballRail =>
    match event.agents with
    | [Agent.ball bid, Agent.rail rid] =>
      match getBall balls bid, getRail table rid with
      | some ball, some rail =>
        let rvw := phys.resolve_ball_rail_collision ball.rvw rail.normal ball.R ball.m rail.height
        setBall balls bid rvw BState.sliding
      | _, _ => balls
    | _ => balls
  | some _ => balls

/-- One sample of a `ShotHistory`: absolute time, the event that produced it,
and the per-ball snapshot of `s` and `rvw` (the whole `Ball` is recorded). -/
abbrev Sample := Time × Option Event × List Ball

/-- The mutable history state of `ShotHistory`: the appended samples, the
running `self.time`, and the `self.vectorized` flag. -/
structure Hist where
  samples : List Sample
  time : Time
  vectorized : Bool
deriving DecidableEq, Repr

/-- `ShotHistory.timestamp(dt, event)`: advance `self.time` by `dt` and
append one sample holding every ball's current state. -/
def timestamp (dt : Time) (event : Option Event) (balls : List Ball)
    (hist : Hist) : Hist :=
  { samples := hist.samples ++ [(hist.time + dt, event, balls)]
    time := hist.time + dt
    vectorized := hist.vectorized }

/-- `ShotHistory.reset_history()`. -/
def resetHistory : Hist := ⟨[], 0, false⟩

/-- `ShotHistory.vectorize_history()`: a purely representational conversion
of the sample lists to arrays; it changes no recorded value. -/
def vectorizeHist (hist : Hist) : Hist :=
  { hist with vectorized := true }

/-- The per-ball loop of `ShotSimulation.evolve`: every ball in the dict is
advanced by `dt` under its current regime through the physics kernel. -/
def advanceBalls (phys : Physics) (g : ℚ) (table : Table) (dt : Time)
    (balls : List Ball) : List Ball :=
  balls.map fun ball =>
    let p := phys.evolve_ball_motion ball.s ball.rvw ball.R ball.m
      table.u_s table.u_sp table.u_r g dt
    { ball with rvw := p.1, s := p.2 }

/-- `ShotSimulation.evolve(dt, log=True, event)`: advance every ball, then
resolve the event if one was passed, then timestamp. -/
def evolve (phys : Physics) (g : ℚ) (table : Table) (dt : Time)
    (event : Option Event) (balls : List Ball) (hist : Hist) :
    List Ball × Hist :=
  let balls := advanceBalls phys g table dt balls
  let balls :=
    match event with
    | none => balls
    | some e => resolve phys table e balls
  (balls, timestamp dt event balls hist)

/-- One iteration of the `simulate` main loop: select the next event, then
`evolve(dt=event.tau, event=event)`. -/
def simIter (phys : Physics) (g : ℚ) (table : Table) (balls : List Ball)
    (hist : Hist) : Event × List Ball × Hist :=
  let ev := get_next_event phys g table balls
  let p := evolve phys g table ev.tau (some ev) balls hist
  (ev, p.1, p.2)

/-- The `while event.tau < np.inf` loop of `ShotSimulation.simulate`, with the
optional time bound checked after each iteration (`if time is not None and
self.time >= time: break`).  The loop is indexed by fuel; any fuel at least
the number of iterations the Python loop performs yields its result. -/
def simLoop (phys : Physics) (g : ℚ) (table : Table) (bound : Option ℚ) :
    ℕ → Event → List Ball → Hist → List Ball × Hist
  | 0, _, balls, hist => (balls, hist)
  | fuel + 1, event, balls, hist =>
    if event.tau < ⊤ then
      let it := simIter phys g table balls hist
      match bound with
      | some b =>
        if (b : Time) ≤ it.2.2.time then (it.2.1, it.2.2)
        else simLoop phys g table bound fuel it.1 it.2.1 it.2.2
      | none => simLoop phys g table bound fuel it.1 it.2.1 it.2.2
    else (balls, hist)

/-- `ShotSimulation.simulate(time)`: timestamp the initial state with the
null event `Event(None, (), 0)`, run the loop, vectorize the history. -/
def simulate (phys : Physics) (g : ℚ) (table : Table) (bound : Option ℚ)
    (fuel : ℕ) (balls : List Ball) : List Ball × Hist :=
  let ev0 : Event := ⟨none, [], 0⟩
  let hist := timestamp 0 (some ev0) balls resetHistory
  let p := simLoop phys g table bound fuel ev0 balls hist
  (p.1, vectorizeHist p.2)

/-- `ShotHistory.set_table_state_via_history(index, history)`: every live
ball is set to the `rvw` and `s` its id had at sample `index` of the given
history. -/
def set_table_state_via_history (old : List Sample) (idx : ℕ)
    (balls : List Ball) : List Ball :=
  balls.map fun b =>
    match (old.getD idx (0, none, [])).2.2.find? (fun b' => b'.id = b.id) with
    | some b' => { b with rvw := b'.rvw, s := b'.s }
    | none => b

/-- The `while event_time < (event.tau - dt_prime)` loop of
`ShotHistory.continuize`: evolve-and-log in steps (the first of size
`dt_prime`, after which `dt_prime` is reset to `dt`), accumulating
`event_time`.  Fuel-indexed; returns the balls, history and final
`event_time`. -/
def contEventLoop (phys : Physics) (g : ℚ) (table : Table) (dt tau : ℚ) :
    ℕ → ℚ → ℚ → List Ball → Hist → List Ball × Hist × ℚ
  | 0, _, et, balls, hist => (balls, hist, et)
  | fuel + 1, dtp, et, balls, hist =>
    if et < tau - dtp then
      let p := evolve phys g table (dtp : ℚ) none balls hist
      contEventLoop phys g table dt tau fuel dt (et + dtp) p.1 p.2
    else (balls, hist, et)

/-- The `for index, event in zip(...)` loop of `ShotHistory.continuize`:
non-`Event` entries are skipped, an infinite `tau` breaks, and otherwise the
inner while loop runs, `dt_prime` is recomputed as `dt - (event.tau -
event_time)`, and the live balls are set to the event's resolved state from
the old history. -/
def contFor (phys : Physics) (g : ℚ) (table : Table) (dt : ℚ) (fuel : ℕ)
    (old : List Sample) :
    List (ℕ × Sample) → ℚ → List Ball → Hist → List Ball × Hist
  | [], _, balls, hist => (balls, hist)
  | (_, (_, none, _)) :: rest, dtp, balls, hist =>
    contFor phys g table dt fuel old rest dtp balls hist
  | (idx, (_, some ev, _)) :: rest, dtp, balls, hist =>
    if h : ev.tau = ⊤ then (balls, hist)
    else
      let tauq := ev.tau.untop h
      let p := contEventLoop phys g table dt tauq fuel dtp 0 balls hist
      let dtp' := dt - (tauq - p.2.2)
      let balls' := set_table_state_via_history old idx p.1
      contFor phys g table dt fuel old rest dtp' balls' p.2.1

/-- `ShotHistory.continuize(dt)`: reset the history, set and log the balls to
the old initial state, replay every old event in fixed steps of `dt`, and
vectorize.  `old` is the event-indexed history being replayed. -/
def continuize (phys : Physics) (g : ℚ) (table : Table) (dt : ℚ) (fuel : ℕ)
    (old : List Sample) (balls : List Ball) : List Ball × Hist :=
  let balls := set_table_state_via_history old 0 balls
  let hist := timestamp 0 none balls resetHistory
  let p := contFor phys g table dt fuel old old.enum dt balls hist
  (p.1, vectorizeHist p.2)

/-- Modelled from the spec: `pooltool.utils.unit_vector` lives in
`pooltool/math/_math.py`, which is not part of the given source; the spec
(§3, Cushion) only requires the derived `normal` to be a unit vector, i.e.
the normalization `v / ‖v‖`. -/
noncomputable def unit_vector (v : ℝ × ℝ × ℝ) : ℝ × ℝ × ℝ :=
  let n := Real.sqrt (v.1 ^ 2 + v.2.1 ^ 2 + v.2.2 ^ 2)
  (v.1 / n, v.2.1 / n, v.2.2 / n)

/-- A constructed `Cushion` of `pooltool/objects/table.py`: boundary points,
derived height and line coefficients (all rational data of the source; the
derived real-valued `normal` is exposed as `Cushion.normalVec`). -/
structure Cushion where
  id : ℕ
  p1 : Vec3
  p2 : Vec3
  height : ℚ
  lx : ℚ
  ly : ℚ
  l0 : ℚ
deriving DecidableEq, Repr

/-- `Cushion.__init__`: raises `ValueError` when the two boundary points have
different heights (modelled as `none`); otherwise derives `height` and the
line coefficients `(lx, ly, l0)` by the vertical/generic case split on
`p2x - p1x == 0`. -/
def Cushion.make (id : ℕ) (p1 p2 : Vec3) : Option Cushion :=
  if p1.z ≠ p2.z then none
  else
    let height := p1.z
    let c : ℚ × ℚ × ℚ :=
      if p2.x - p1.x = 0 then (1, 0, -p1.x)
      else (-(p2.y - p1.y) / (p2.x - p1.x), 1, (p2.y - p1.y) / (p2.x - p1.x) * p1.x - p1.y)
    some
      { id := id, p1 := p1, p2 := p2, height := height
        lx := c.1, ly := c.2.1, l0 := c.2.2 }

/-- The cushion's `self.normal = utils.unit_vector(np.array([lx, ly, 0]))`. -/
noncomputable def Cushion.normalVec (c : Cushion) : ℝ × ℝ × ℝ :=
  unit_vector ((c.lx : ℝ), (c.ly : ℝ), (0 : ℝ))

/-- The zero kinematic block, used as a concrete input in witnesses. -/
def rvw0 : Rvw := ⟨⟨0, 0, 0⟩, ⟨0, 0, 0⟩, ⟨0, 0, 0⟩, ⟨0, 0, 0⟩⟩

/-- A concrete physics kernel for witnesses: every transition or collision
time is 1, evolution and collision resolution leave states unchanged. -/
def physW : Physics where
  evolve_ball_motion := fun s rvw _ _ _ _ _ _ _ => (rvw, s)
  get_roll_time := fun _ _ _ => ((1 : ℚ) : Time)
  get_slide_time := fun _ _ _ _ => ((1 : ℚ) : Time)
  get_spin_time := fun _ _ _ _ => ((1 : ℚ) : Time)
  get_ball_ball_collision_time := fun _ _ _ _ _ _ _ _ _ _ => ((1 : ℚ) : Time)
  get_ball_rail_collision_time := fun _ _ _ _ _ _ _ _ _ => ((1 : ℚ) : Time)
  resolve_ball_ball_collision := fun r1 r2 => (r1, r2)
  resolve_ball_rail_collision := fun r _ _ _ _ => r

/-- A concrete one-rail table for witnesses. -/
def tableW : Table := ⟨1, 1, 1, [⟨0, 1, 0, 0, ⟨1, 0, 0⟩, 1⟩]⟩

/-- Two concrete rolling balls for witnesses. -/
def ballsW : List Ball := [⟨0, 1, 1, BState.rolling, rvw0⟩, ⟨1, 1, 1, BState.rolling, rvw0⟩]

/-- Evolution of a single ball by `dt` under its current regime, exactly the
body of the per-ball loop in `ShotSimulation.evolve`. -/
def evolveOne (phys : Physics) (g : ℚ) (table : Table) (dt : Time)
    (ball : Ball) : Ball :=
  let p := phys.evolve_ball_motion ball.s ball.rvw ball.R ball.m
    table.u_s table.u_sp table.u_r g dt
  { ball with rvw := p.1, s := p.2 }

/-- Modelled from the spec: `psim.physics.evolve_ball_motion` is not under
`src/`; §4.1 specifies the stationary regime of `evolve_ball_motion` as the
identity ("stationary: identity"), for every elapsed time. -/
def StationaryIdentity (phys : Physics) : Prop :=
  ∀ rvw R m u_s u_sp u_r g t,
    phys.evolve_ball_motion BState.stationary rvw R m u_s u_sp u_r g t =
      (rvw, BState.stationary)

/-- The candidate list described by the spec for the ball-ball generator:
every ordered-by-index pair `i < j` of balls except those where both are
stationary. -/
def bbCandidatesSpec (balls : List Ball) : List ((ℕ × Ball) × (ℕ × Ball)) :=
  (balls.enum ×ˢ balls.enum).filter fun p =>
    decide (p.1.1 < p.2.1 ∧
      ¬(p.1.2.s = BState.stationary ∧ p.2.2.s = BState.stationary))

/-- The running-minimum update of the ball-ball generator for one pair. -/
def bbStep (phys : Physics) (g : ℚ) (table : Table)
    (acc : Time × List Agent) (p : (ℕ × Ball) × (ℕ × Ball)) : Time × List Agent :=
  let tau := bbTau phys g table p.1.2 p.2.2
  if tau < acc.1 then (tau, [Agent.ball p.1.2.id, Agent.ball p.2.2.id]) else acc

/-- The candidate list described by the spec for the ball-rail generator:
every non-stationary ball paired with every rail. -/
def brCandidatesSpec (balls : List Ball) (rails : List Rail) : List (Ball × Rail) :=
  (balls.filter fun b => decide (¬ b.s = BState.stationary)) ×ˢ rails

/-- The running-minimum update of the ball-rail generator for one pair. -/
def brStep (phys : Physics) (g : ℚ) (table : Table)
    (acc : Time × List Agent) (p : Ball × Rail) : Time × List Agent :=
  let tau := brTau phys g table p.1 p.2
  if tau < acc.1 then (tau, [Agent.ball p.1.id, Agent.rail p.2.id]) else acc

/-- The finite `tau` recorded in a history sample's event (0 when absent). -/
def sampleTau (s : Sample) : ℚ :=
  match s.2.1 with
  | none => 0
  | some ev => ev.tau.untop' 0

/-- An entry list on which the continuize for-loop immediately stops:
either exhausted, or headed by an infinite-`tau` event (the `break`). -/
def TailStops (tail : List (ℕ × Sample)) : Prop :=
  tail = [] ∨ ∃ i t ev snap rest, tail = (i, (t, some ev, snap)) :: rest ∧ ev.tau = ⊤

/-- A physics kernel whose only next event is an end-roll after 1/4 s and
whose evolution changes nothing (so the rolling ball generates a steady
stream of events): used to produce a run with events closer than `dt`. -/
def physC7 : Physics :=
  { physW with get_roll_time := fun _ _ _ => ((1 / 4 : ℚ) : Time) }

/-- A table with no rails for the continuize runs. -/
def tableE : Table := ⟨1, 1, 1, []⟩

/-- A single rolling ball. -/
def ballsC7 : List Ball := [⟨0, 1, 1, BState.rolling, rvw0⟩]

/-- A physics kernel for the C3 run: the only event is an end-roll after
3/100 s, and evolution moves the ball's x position at unit speed. -/
def physC3 : Physics :=
  { physW with
      get_roll_time := fun _ _ _ => ((3 / 100 : ℚ) : Time)
      evolve_ball_motion := fun s rvw _ _ _ _ _ _ t =>
        ({ rvw with r := { rvw.r with x := rvw.r.x + t.untop' 0 } }, s) }

/-- C8: constructing a `Cushion` from two boundary points fails exactly when
their heights (z coordinates) differ, and on success the cushion's height is
the shared z coordinate. -/
theorem cushion_construction_height (id : ℕ) (p1 p2 : Vec3) :
    ((Cushion.make id p1 p2).isSome ↔ p1.z = p2.z) ∧
    (∀ c : Cushion, Cushion.make id p1 p2 = some c →
      c.height = p1.z ∧ c.height = p2.z) := by
  unfold Cushion.make
  by_cases h : p1.z = p2.z
  · refine ⟨by simp [h], ?_⟩
    intro c hc
    simp only [h, ne_eq, not_true_eq_false, if_false, ite_not] at hc
    split at hc <;> · rw [Option.some_inj] at hc; subst hc; exact ⟨h.symm, rfl⟩
  · refine ⟨by simp [h], ?_⟩
    intro c hc
    simp [h] at hc

/-- C1: `get_next_event` returns the minimum candidate `tau` over the three
generators, and the strict-inequality updates make exact ties resolve to the
earlier-declared generator: motion transition, then ball-ball, then
ball-rail. -/
theorem next_event_min_and_tie_break (phys : Physics) (g : ℚ) (table : Table)
    (balls : List Ball) :
    (get_next_event phys g table balls).tau =
      min (get_min_motion_event_time phys g table balls).1
        (min (get_min_ball_ball_event_time phys g table balls).1
          (get_min_ball_rail_event_time phys g table balls).1) ∧
    ((get_min_motion_event_time phys g table balls).1 < ⊤ →
      (get_min_motion_event_time phys g table balls).1 ≤
        (get_min_ball_ball_event_time phys g table balls).1 →
      (get_min_motion_event_time phys g table balls).1 ≤
        (get_min_ball_rail_event_time phys g table balls).1 →
      (get_next_event phys g table balls).event_type =
        (get_min_motion_event_time phys g table balls).2.2 ∧
      (get_next_event phys g table balls).agents =
        (get_min_motion_event_time phys g table balls).2.1) ∧
    ((get_min_ball_ball_event_time phys g table balls).1 <
        (get_min_motion_event_time phys g table balls).1 →
      (get_min_ball_ball_event_time phys g table balls).1 ≤
        (get_min_ball_rail_event_time phys g table balls).1 →
      (get_next_event phys g table balls).event_type = some EventType.ballBall ∧
      (get_next_event phys g table balls).agents =
        (get_min_ball_ball_event_time phys g table balls).2) ∧
    ((get_min_ball_rail_event_time phys g table balls).1 <
        (get_min_motion_event_time phys g table balls).1 →
      (get_min_ball_rail_event_time phys g table balls).1 <
        (get_min_ball_ball_event_time phys g table balls).1 →
      (get_next_event phys g table balls).event_type = some EventType.ballRail ∧
      (get_next_event phys g table balls).agents =
        (get_min_ball_rail_event_time phys g table balls).2) := by
  refine ⟨?_, ?_, ?_, ?_⟩
  · by_cases h1 : (get_min_motion_event_time phys g table balls).1 < (⊤ : Time)
    · by_cases h2 : (get_min_ball_ball_event_time phys g table balls).1 <
          (get_min_motion_event_time phys g table balls).1
      · by_cases h3 : (get_min_ball_rail_event_time phys g table balls).1 <
            (get_min_ball_ball_event_time phys g table balls).1
        · simp [get_next_event, h1, h2, h3]
          rw [min_eq_right (le_of_lt h3), min_eq_right (le_of_lt (h3.trans h2))]
        · simp [get_next_event, h1, h2, h3]
          rw [min_eq_left (not_lt.mp h3), min_eq_right (le_of_lt h2)]
      · by_cases h3 : (get_min_ball_rail_event_time phys g table balls).1 <
            (get_min_motion_event_time phys g table balls).1
        · simp [get_next_event, h1, h2, h3]
          rw [min_eq_right (le_of_lt (lt_of_lt_of_le h3 (not_lt.mp h2))),
            min_eq_right (le_of_lt h3)]
        · simp [get_next_event, h1, h2, h3]
          exact ⟨not_lt.mp h2, not_lt.mp h3⟩
    · have h1' : (get_min_motion_event_time phys g table balls).1 = ⊤ :=
        top_le_iff.mp (not_lt.mp h1)
      by_cases h2 : (get_min_ball_ball_event_time phys g table balls).1 < (⊤ : Time)
      · by_cases h3 : (get_min_ball_rail_event_time phys g table balls).1 <
            (get_min_ball_ball_event_time phys g table balls).1
        · simp [get_next_event, h1, h2, h3]
          rw [min_eq_right (le_of_lt h3), h1', min_eq_right le_top]
        · simp [get_next_event, h1, h2, h3]
          rw [min_eq_left (not_lt.mp h3), h1', min_eq_right le_top]
      · have h2' : (get_min_ball_ball_event_time phys g table balls).1 = ⊤ :=
          top_le_iff.mp (not_lt.mp h2)
        by_cases h3 : (get_min_ball_rail_event_time phys g table balls).1 < (⊤ : Time)
        · simp [get_next_event, h1, h2, h3]
          rw [h1', h2', min_eq_right le_top, min_eq_right le_top]
        · have h3' : (get_min_ball_rail_event_time phys g table balls).1 = ⊤ :=
            top_le_iff.mp (not_lt.mp h3)
          simp [get_next_event, h1, h2, h3]
          rw [h1', h2', h3', min_eq_right le_top, min_eq_right le_top]
  · intro h1 hle2 hle3
    have h2 : ¬ (get_min_ball_ball_event_time phys g table balls).1 <
        (get_min_motion_event_time phys g table balls).1 := not_lt.mpr hle2
    have h3 : ¬ (get_min_ball_rail_event_time phys g table balls).1 <
        (get_min_motion_event_time phys g table balls).1 := not_lt.mpr hle3
    constructor <;> simp [get_next_event, h1, h2, h3]
  · intro hlt2 hle3
    have h3 : ¬ (get_min_ball_rail_event_time phys g table balls).1 <
        (get_min_ball_ball_event_time phys g table balls).1 := not_lt.mpr hle3
    by_cases h1 : (get_min_motion_event_time phys g table balls).1 < (⊤ : Time)
    · constructor <;> simp [get_next_event, h1, hlt2, h3]
    · have h2 : (get_min_ball_ball_event_time phys g table balls).1 < (⊤ : Time) :=
        lt_of_lt_of_le hlt2 le_top
      constructor <;> simp [get_next_event, h1, h2, h3]
  · intro hlt3 hlt2
    by_cases h1 : (get_min_motion_event_time phys g table balls).1 < (⊤ : Time)
    · by_cases h2 : (get_min_ball_ball_event_time phys g table balls).1 <
          (get_min_motion_event_time phys g table balls).1
      · constructor <;> simp [get_next_event, h1, h2, hlt2]
      · constructor <;> simp [get_next_event, h1, h2, hlt3]
    · by_cases h2 : (get_min_ball_ball_event_time phys g table balls).1 < (⊤ : Time)
      · constructor <;> simp [get_next_event, h1, h2, hlt2]
      · have h3 : (get_min_ball_rail_event_time phys g table balls).1 < (⊤ : Time) :=
          lt_of_lt_of_le hlt3 le_top
        constructor <;> simp [get_next_event, h1, h2, h3]

/-- C1 witness: with all three candidate times equal to 1, the motion
transition of the first rolling ball wins the tie and the returned `tau` is
the common minimum. -/
theorem next_event_min_and_tie_break_witness :
    (get_min_motion_event_time physW 1 tableW ballsW).1 < (⊤ : Time) ∧
    (get_min_motion_event_time physW 1 tableW ballsW).1 =
      (get_min_ball_ball_event_time physW 1 tableW ballsW).1 ∧
    (get_min_motion_event_time physW 1 tableW ballsW).1 =
      (get_min_ball_rail_event_time physW 1 tableW ballsW).1 ∧
    (get_next_event physW 1 tableW ballsW).event_type = some EventType.endRoll ∧
    (get_next_event physW 1 tableW ballsW).agents = [Agent.ball 0] ∧
    (get_next_event physW 1 tableW ballsW).tau = ((1 : ℚ) : Time) := by
  have h := next_event_min_and_tie_break physW 1 tableW ballsW
  have hsel := h.2.1 (by decide) (by decide) (by decide)
  exact ⟨by decide, by decide, by decide,
    hsel.1.trans (by decide), hsel.2.trans (by decide), h.1.trans (by decide)⟩

lemma setBall_length (balls : List Ball) (id : ℕ) (rvw : Rvw) (s : BState) :
    (setBall balls id rvw s).length = balls.length := by
  simp [setBall]

lemma getElem?_setBall (balls : List Ball) (id : ℕ) (rvw : Rvw) (s : BState)
    (i : ℕ) :
    (setBall balls id rvw s)[i]? =
      (balls[i]?).map (fun b => if b.id = id then { b with rvw := rvw, s := s } else b) := by
  simp [setBall, List.getElem?_map]

lemma mem_setBall (balls : List Ball) (id : ℕ) (rvw : Rvw) (s : BState)
    (b' : Ball) (h : b' ∈ setBall balls id rvw s) :
    (b'.id = id ∧ b'.s = s ∧ b'.rvw = rvw) ∨ (b' ∈ balls ∧ b'.id ≠ id) := by
  simp only [setBall, List.mem_map] at h
  obtain ⟨a, ha, rfl⟩ := h
  by_cases hid : a.id = id
  · left
    simp [hid]
  · right
    simp [hid, ha]

lemma mem_setBall_sliding (balls : List Ball) (id : ℕ) (rvw : Rvw)
    (b' : Ball) (h : b' ∈ setBall balls id rvw BState.sliding)
    (hid : b'.id = id) : b'.s = BState.sliding := by
  rcases mem_setBall balls id rvw BState.sliding b' h with h1 | h1
  · exact h1.2.1
  · exact absurd hid h1.2

lemma resolve_eq_of_none (phys : Physics) (table : Table) (ev : Event)
    (balls : List Ball) (h : ev.event_type = none) :
    resolve phys table ev balls = balls := by
  rcases ev with ⟨et, ags, tau⟩
  have h' : et = none := h
  subst h'
  rfl

lemma resolve_eq_of_motion (phys : Physics) (table : Table) (ev : Event)
    (balls : List Ball) (t : EventType) (h : ev.event_type = some t)
    (hbb : t ≠ EventType.ballBall) (hbr : t ≠ EventType.ballRail) :
    resolve phys table ev balls = balls := by
  rcases ev with ⟨et, ags, tau⟩
  have h' : et = some t := h
  subst h'
  unfold resolve
  cases t <;> simp_all

lemma resolve_getElem?_nonagent (phys : Physics) (table : Table) (ev : Event)
    (balls : List Ball) (i : ℕ) (hi : i < balls.length)
    (hnotin : Agent.ball (balls[i].id) ∉ ev.agents) :
    (resolve phys table ev balls)[i]? = some balls[i] := by
  rcases ev with ⟨et, ags, tau⟩
  have hnot : Agent.ball (balls[i].id) ∉ ags := hnotin
  clear hnotin
  unfold resolve
  have hbase : balls[i]? = some balls[i] := List.getElem?_eq_getElem hi
  repeat' split
  all_goals try exact hbase
  · rename_i x3 heq3 x2 id1 id2 heq2 x1 x0 b1 b2 heq1 heq0
    have hags : ags = [Agent.ball id1, Agent.ball id2] := heq2
    rw [hags] at hnot
    have hne1 : balls[i].id ≠ id1 := fun hc =>
      hnot (by rw [hc]; exact List.mem_cons_self _ _)
    have hne2 : balls[i].id ≠ id2 := fun hc =>
      hnot (by rw [hc]; exact List.mem_cons_of_mem _ (List.mem_cons_self _ _))
    simp [getElem?_setBall, hbase, hne1, hne2]
  · rename_i x3 heq3 x2 bid rid heq2 x1 x0 ball rail heq1 heq0
    have hags : ags = [Agent.ball bid, Agent.rail rid] := heq2
    rw [hags] at hnot
    have hne : balls[i].id ≠ bid := fun hc =>
      hnot (by rw [hc]; exact List.mem_cons_self _ _)
    simp [getElem?_setBall, hbase, hne]

/-- C5: `resolve` preserves the ball count, leaves every ball that is not an
agent of the event untouched, does nothing for a `None`-type or
motion-transition event, and sets each collision agent's motion state to
sliding (two balls for ball-ball, one for ball-rail). -/
theorem resolve_agents_only (phys : Physics) (table : Table) (ev : Event)
    (balls : List Ball) :
    (resolve phys table ev balls).length = balls.length ∧
    (ev.event_type = none → resolve phys table ev balls = balls) ∧
    (∀ t, ev.event_type = some t → t ≠ EventType.ballBall →
      t ≠ EventType.ballRail → resolve phys table ev balls = balls) ∧
    (∀ i (hi : i < balls.length),
      Agent.ball (balls[i].id) ∉ ev.agents →
      (resolve phys table ev balls)[i]? = some balls[i]) ∧
    (∀ id1 id2, ev.event_type = some EventType.ballBall →
      ev.agents = [Agent.ball id1, Agent.ball id2] →
      (getBall balls id1).isSome → (getBall balls id2).isSome →
      ∀ b' ∈ resolve phys table ev balls,
        b'.id = id1 ∨ b'.id = id2 → b'.s = BState.sliding) ∧
    (∀ bid rid, ev.event_type = some EventType.ballRail →
      ev.agents = [Agent.ball bid, Agent.rail rid] →
      (getBall balls bid).isSome → (getRail table rid).isSome →
      ∀ b' ∈ resolve phys table ev balls,
        b'.id = bid → b'.s = BState.sliding) := by
  rcases ev with ⟨et, ags, tau⟩
  refine ⟨?_, ?_, ?_, ?_, ?_, ?_⟩
  · unfold resolve
    repeat' split
    all_goals simp [setBall_length]
  · intro h
    exact resolve_eq_of_none phys table ⟨et, ags, tau⟩ balls h
  · intro t ht hbb hbr
    exact resolve_eq_of_motion phys table ⟨et, ags, tau⟩ balls t ht hbb hbr
  · intro i hi hnotin
    exact resolve_getElem?_nonagent phys table ⟨et, ags, tau⟩ balls i hi hnotin
  · intro id1 id2 het hags hs1 hs2 b' hb' hid
    have het' : et = some EventType.ballBall := het
    have hags' : ags = [Agent.ball id1, Agent.ball id2] := hags
    subst het'
    subst hags'
    rw [Option.isSome_iff_exists] at hs1 hs2
    obtain ⟨b1, hb1⟩ := hs1
    obtain ⟨b2, hb2⟩ := hs2
    simp only [resolve, hb1, hb2] at hb'
    rcases hid with hid | hid
    · rcases mem_setBall _ _ _ _ _ hb' with h | h
      · exact h.2.1
      · exact mem_setBall_sliding _ _ _ _ h.1 hid
    · exact mem_setBall_sliding _ _ _ _ hb' hid
  · intro bid rid het hags hs hr b' hb' hid
    have het' : et = some EventType.ballRail := het
    have hags' : ags = [Agent.ball bid, Agent.rail rid] := hags
    subst het'
    subst hags'
    rw [Option.isSome_iff_exists] at hs hr
    obtain ⟨ball, hball⟩ := hs
    obtain ⟨rail, hrail⟩ := hr
    simp only [resolve, hball, hrail] at hb'
    exact mem_setBall_sliding _ _ _ _ hb' hid

/-- C5 witness: for a concrete ball-ball event between balls 0 and 1 of a
three-ball shot, the third ball is untouched and both agents end sliding. -/
theorem resolve_agents_only_witness :
    (resolve physW tableW
        ⟨some EventType.ballBall, [Agent.ball 0, Agent.ball 1], ((1 : ℚ) : Time)⟩
        [⟨0, 1, 1, BState.rolling, rvw0⟩, ⟨1, 1, 1, BState.rolling, rvw0⟩,
         ⟨2, 1, 1, BState.rolling, rvw0⟩])[2]? =
      some (⟨2, 1, 1, BState.rolling, rvw0⟩ : Ball) ∧
    (∀ b' ∈ resolve physW tableW
        ⟨some EventType.ballBall, [Agent.ball 0, Agent.ball 1], ((1 : ℚ) : Time)⟩
        [⟨0, 1, 1, BState.rolling, rvw0⟩, ⟨1, 1, 1, BState.rolling, rvw0⟩,
         ⟨2, 1, 1, BState.rolling, rvw0⟩],
      b'.id = 0 ∨ b'.id = 1 → b'.s = BState.sliding) := by
  have h := resolve_agents_only physW tableW
    ⟨some EventType.ballBall, [Agent.ball 0, Agent.ball 1], ((1 : ℚ) : Time)⟩
    [⟨0, 1, 1, BState.rolling, rvw0⟩, ⟨1, 1, 1, BState.rolling, rvw0⟩,
     ⟨2, 1, 1, BState.rolling, rvw0⟩]
  exact ⟨h.2.2.2.1 2 (by decide) (by decide),
    h.2.2.2.2.1 0 1 rfl rfl (by decide) (by decide)⟩

lemma advanceBalls_eq_map (phys : Physics) (g : ℚ) (table : Table) (dt : Time)
    (balls : List Ball) :
    advanceBalls phys g table dt balls = balls.map (evolveOne phys g table dt) := rfl

/-- C2: in each iteration of the main loop the evolved ball list is obtained
by first advancing every ball by the selected event's `tau` under its current
regime and only then applying the event resolution: non-agent balls end up
exactly advanced, and the collision resolutions are computed from the already
advanced agent states. -/
theorem evolve_all_balls_before_resolve (phys : Physics) (g : ℚ) (table : Table)
    (balls : List Ball) (hist : Hist) :
    ((simIter phys g table balls hist).2.1 =
      resolve phys table (get_next_event phys g table balls)
        (advanceBalls phys g table (get_next_event phys g table balls).tau balls)) ∧
    (∀ i (hi : i < balls.length),
      Agent.ball (balls[i].id) ∉ (get_next_event phys g table balls).agents →
      ((simIter phys g table balls hist).2.1)[i]? =
        some (evolveOne phys g table (get_next_event phys g table balls).tau balls[i])) ∧
    (∀ id1 id2 a1 a2,
      (get_next_event phys g table balls).event_type = some EventType.ballBall →
      (get_next_event phys g table balls).agents = [Agent.ball id1, Agent.ball id2] →
      getBall (advanceBalls phys g table (get_next_event phys g table balls).tau balls)
        id1 = some a1 →
      getBall (advanceBalls phys g table (get_next_event phys g table balls).tau balls)
        id2 = some a2 →
      ∀ b' ∈ (simIter phys g table balls hist).2.1,
        (b'.id = id2 → b'.rvw = (phys.resolve_ball_ball_collision a1.rvw a2.rvw).2) ∧
        (b'.id = id1 → b'.id ≠ id2 →
          b'.rvw = (phys.resolve_ball_ball_collision a1.rvw a2.rvw).1)) ∧
    (∀ bid rid a rail,
      (get_next_event phys g table balls).event_type = some EventType.ballRail →
      (get_next_event phys g table balls).agents = [Agent.ball bid, Agent.rail rid] →
      getBall (advanceBalls phys g table (get_next_event phys g table balls).tau balls)
        bid = some a →
      getRail table rid = some rail →
      ∀ b' ∈ (simIter phys g table balls hist).2.1,
        b'.id = bid →
          b'.rvw = phys.resolve_ball_rail_collision a.rvw rail.normal a.R a.m rail.height) := by
  refine ⟨rfl, ?_, ?_, ?_⟩
  · intro i hi hnotin
    have hres : (simIter phys g table balls hist).2.1 =
        resolve phys table (get_next_event phys g table balls)
          (advanceBalls phys g table (get_next_event phys g table balls).tau balls) := rfl
    rw [hres]
    have hlen : i <
        (advanceBalls phys g table (get_next_event phys g table balls).tau balls).length := by
      rw [advanceBalls_eq_map, List.length_map]
      exact hi
    have hadv : (advanceBalls phys g table (get_next_event phys g table balls).tau balls)[i] =
        evolveOne phys g table (get_next_event phys g table balls).tau balls[i] := by
      simp [advanceBalls_eq_map]
    have hid : (advanceBalls phys g table (get_next_event phys g table balls).tau balls)[i].id =
        balls[i].id := by
      rw [hadv]
      rfl
    have h := resolve_getElem?_nonagent phys table (get_next_event phys g table balls)
      (advanceBalls phys g table (get_next_event phys g table balls).tau balls) i hlen
      (by rw [hid]; exact hnotin)
    rw [h, hadv]
  · intro id1 id2 a1 a2 het hags ha1 ha2 b' hb'
    have hres : (simIter phys g table balls hist).2.1 =
        resolve phys table (get_next_event phys g table balls)
          (advanceBalls phys g table (get_next_event phys g table balls).tau balls) := rfl
    rw [hres] at hb'
    rcases hgne : get_next_event phys g table balls with ⟨et, ags, tau⟩
    rw [hgne] at het hags ha1 ha2 hb'
    have het' : et = some EventType.ballBall := het
    have hags' : ags = [Agent.ball id1, Agent.ball id2] := hags
    subst het'
    subst hags'
    simp only [resolve, ha1, ha2] at hb'
    constructor
    · intro hid2
      rcases mem_setBall _ _ _ _ _ hb' with h | h
      · exact h.2.2
      · exact absurd hid2 h.2
    · intro hid1 hne2
      rcases mem_setBall _ _ _ _ _ hb' with h | h
      · exact absurd h.1 hne2
      · rcases mem_setBall _ _ _ _ _ h.1 with h2 | h2
        · exact h2.2.2
        · exact absurd hid1 h2.2
  · intro bid rid a rail het hags ha hrail b' hb' hid
    have hres : (simIter phys g table balls hist).2.1 =
        resolve phys table (get_next_event phys g table balls)
          (advanceBalls phys g table (get_next_event phys g table balls).tau balls) := rfl
    rw [hres] at hb'
    rcases hgne : get_next_event phys g table balls with ⟨et, ags, tau⟩
    rw [hgne] at het hags ha hb'
    have het' : et = some EventType.ballRail := het
    have hags' : ags = [Agent.ball bid, Agent.rail rid] := hags
    subst het'
    subst hags'
    simp only [resolve, ha, hrail] at hb'
    rcases mem_setBall _ _ _ _ _ hb' with h | h
    · exact h.2.2
    · exact absurd hid h.2

/-- C2 witness: at a concrete two-rolling-ball state whose next event is the
end-roll of ball 0, every ball (agent or not) is exactly advanced by the
event's `tau` under its regime. -/
theorem evolve_all_balls_before_resolve_witness :
    (get_next_event physW 1 tableW ballsW).agents = [Agent.ball 0] ∧
    ((simIter physW 1 tableW ballsW resetHistory).2.1)[1]? =
      some (evolveOne physW 1 tableW ((1 : ℚ) : Time)
        (⟨1, 1, 1, BState.rolling, rvw0⟩ : Ball)) := by
  have h := (evolve_all_balls_before_resolve physW 1 tableW ballsW resetHistory).2.1
    1 (by decide) (by decide)
  refine ⟨by decide, ?_⟩
  rw [h]
  congr 1

lemma foldl_fixed {α β : Type} (f : β → α → β) (l : List α) (init : β)
    (h : ∀ acc, ∀ x ∈ l, f acc x = acc) : l.foldl f init = init := by
  induction l generalizing init with
  | nil => rfl
  | cons a t ih =>
      rw [List.foldl_cons, h init a (List.mem_cons_self a t)]
      exact ih init fun acc x hx => h acc x (List.mem_cons_of_mem a hx)

lemma motion_top_of_stationary (phys : Physics) (g : ℚ) (table : Table)
    (balls : List Ball) (h : ∀ b ∈ balls, b.s = BState.stationary) :
    get_min_motion_event_time phys g table balls = (⊤, [Agent.nullA], none) := by
  unfold get_min_motion_event_time
  rw [foldl_fixed _ _ _ fun acc x hx => by simp [h x hx]]

lemma bb_top_of_stationary (phys : Physics) (g : ℚ) (table : Table)
    (balls : List Ball) (h : ∀ b ∈ balls, b.s = BState.stationary) :
    get_min_ball_ball_event_time phys g table balls = (⊤, []) := by
  unfold get_min_ball_ball_event_time
  apply foldl_fixed
  intro acc0 p1 hp1
  apply foldl_fixed
  intro acc p2 hp2
  by_cases hle : p2.1 ≤ p1.1
  · simp [hle]
  · have h1 : p1.2.s = BState.stationary :=
      h _ (List.get?_mem (List.mem_enum_iff_get?.mp hp1))
    have h2 : p2.2.s = BState.stationary :=
      h _ (List.get?_mem (List.mem_enum_iff_get?.mp hp2))
    simp [hle, h1, h2]

lemma br_top_of_stationary (phys : Physics) (g : ℚ) (table : Table)
    (balls : List Ball) (h : ∀ b ∈ balls, b.s = BState.stationary) :
    get_min_ball_rail_event_time phys g table balls = (⊤, [Agent.nullA, Agent.nullA]) := by
  unfold get_min_ball_rail_event_time
  apply foldl_fixed
  intro acc0 ball hb
  simp [h ball hb]

lemma gne_stationary (phys : Physics) (g : ℚ) (table : Table)
    (balls : List Ball) (h : ∀ b ∈ balls, b.s = BState.stationary) :
    get_next_event phys g table balls = ⟨none, [], ⊤⟩ := by
  simp [get_next_event, motion_top_of_stationary phys g table balls h,
    bb_top_of_stationary phys g table balls h,
    br_top_of_stationary phys g table balls h]

lemma evolveOne_stationary (phys : Physics) (g : ℚ) (table : Table) (dt : Time)
    (b : Ball) (hid : StationaryIdentity phys) (hb : b.s = BState.stationary) :
    evolveOne phys g table dt b = b := by
  unfold evolveOne
  rw [hb, hid]
  cases b with
  | mk id R m s rvw => simp_all

lemma advanceBalls_stationary (phys : Physics) (g : ℚ) (table : Table)
    (dt : Time) (balls : List Ball) (hid : StationaryIdentity phys)
    (h : ∀ b ∈ balls, b.s = BState.stationary) :
    advanceBalls phys g table dt balls = balls := by
  rw [advanceBalls_eq_map,
    List.map_congr_left fun b hb => evolveOne_stationary phys g table dt b hid (h b hb)]
  exact List.map_id' balls

lemma simLoop_succ (phys : Physics) (g : ℚ) (table : Table) (bound : Option ℚ)
    (fuel : ℕ) (event : Event) (balls : List Ball) (hist : Hist) :
    simLoop phys g table bound (fuel + 1) event balls hist =
      if event.tau < ⊤ then
        (let it := simIter phys g table balls hist
         match bound with
         | some b =>
           if (b : Time) ≤ it.2.2.time then (it.2.1, it.2.2)
           else simLoop phys g table bound fuel it.1 it.2.1 it.2.2
         | none => simLoop phys g table bound fuel it.1 it.2.1 it.2.2)
      else (balls, hist) := rfl

/-- C4: when every ball is stationary, `get_next_event` returns the null
event with `tau = +∞`, and the simulation loop performs exactly one final
iteration (logging the infinite-time sample) and stops, for every fuel,
leaving the ball list — in particular every `rvw` — unchanged. -/
theorem all_stationary_terminates (phys : Physics) (g : ℚ) (table : Table)
    (balls : List Ball) (hist : Hist) (hid : StationaryIdentity phys)
    (h : ∀ b ∈ balls, b.s = BState.stationary) :
    get_next_event phys g table balls = ⟨none, [], ⊤⟩ ∧
    (∀ fuel, simLoop phys g table none (fuel + 2) ⟨none, [], 0⟩ balls hist =
      (balls, timestamp ⊤ (some ⟨none, [], ⊤⟩) balls hist)) := by
  have hgne := gne_stationary phys g table balls h
  have hit : simIter phys g table balls hist =
      (⟨none, [], ⊤⟩, balls, timestamp ⊤ (some ⟨none, [], ⊤⟩) balls hist) := by
    unfold simIter
    rw [hgne]
    simp only [evolve]
    rw [advanceBalls_stationary phys g table _ balls hid h,
      resolve_eq_of_none phys table _ balls rfl]
  refine ⟨hgne, fun fuel => ?_⟩
  rw [show fuel + 2 = (fuel + 1) + 1 from rfl, simLoop_succ]
  rw [if_pos (by exact WithTop.coe_lt_top 0)]
  simp only [hit]
  rw [simLoop_succ]
  rw [if_neg (lt_irrefl ⊤)]

/-- C4 witness: one concrete stationary ball under the identity physics. -/
theorem all_stationary_terminates_witness :
    get_next_event physW 1 tableW [⟨0, 1, 1, BState.stationary, rvw0⟩] =
      ⟨none, [], ⊤⟩ ∧
    simLoop physW 1 tableW none 2 ⟨none, [], 0⟩
        [⟨0, 1, 1, BState.stationary, rvw0⟩] resetHistory =
      ([⟨0, 1, 1, BState.stationary, rvw0⟩],
        timestamp ⊤ (some ⟨none, [], ⊤⟩) [⟨0, 1, 1, BState.stationary, rvw0⟩]
          resetHistory) := by
  have h := all_stationary_terminates physW 1 tableW
    [⟨0, 1, 1, BState.stationary, rvw0⟩] resetHistory
    (by intro rvw R m u_s u_sp u_r g t; rfl) (by decide)
  exact ⟨h.1, h.2 0⟩

/-- C9: when a time bound is supplied and the simulated time after an
iteration reaches or exceeds it, the loop returns at the end of exactly that
iteration whatever fuel remains, the history holding every earlier sample
plus the sample of the event just completed; finalization (vectorization)
only sets the flag and changes no recorded sample or time. -/
theorem time_bound_exits_cleanly (phys : Physics) (g : ℚ) (table : Table)
    (b : ℚ) (fuel : ℕ) (event : Event) (balls : List Ball) (hist : Hist)
    (hev : event.tau < ⊤)
    (hstop : (b : Time) ≤ (simIter phys g table balls hist).2.2.time) :
    simLoop phys g table (some b) (fuel + 1) event balls hist =
      ((simIter phys g table balls hist).2.1,
        (simIter phys g table balls hist).2.2) ∧
    (simIter phys g table balls hist).2.2.samples =
      hist.samples ++ [(hist.time + (get_next_event phys g table balls).tau,
        some (get_next_event phys g table balls),
        (simIter phys g table balls hist).2.1)] ∧
    (∀ h' : Hist, (vectorizeHist h').vectorized = true ∧
      (vectorizeHist h').samples = h'.samples ∧
      (vectorizeHist h').time = h'.time) := by
  refine ⟨?_, rfl, fun h' => ⟨rfl, rfl, rfl⟩⟩
  rw [simLoop_succ, if_pos hev]
  exact if_pos hstop

/-- C9 witness: with bound 0 the loop stops right after its first iteration. -/
theorem time_bound_exits_cleanly_witness :
    ((0 : ℚ) : Time) ≤ (simIter physW 1 tableW ballsW resetHistory).2.2.time ∧
    simLoop physW 1 tableW (some 0) 5 ⟨none, [], 0⟩ ballsW resetHistory =
      ((simIter physW 1 tableW ballsW resetHistory).2.1,
        (simIter physW 1 tableW ballsW resetHistory).2.2) := by
  refine ⟨of_decide_eq_true (by with_unfolding_all rfl), ?_⟩
  exact (time_bound_exits_cleanly physW 1 tableW 0 4 ⟨none, [], 0⟩ ballsW
    resetHistory (by decide) (of_decide_eq_true (by with_unfolding_all rfl))).1

lemma foldl_product {α β γ : Type} (l1 : List α) (l2 : List β)
    (g : γ → α → β → γ) (init : γ) :
    l1.foldl (fun acc a => l2.foldl (fun acc' b => g acc' a b) acc) init =
      (l1 ×ˢ l2).foldl (fun acc p => g acc p.1 p.2) init := by
  induction l1 generalizing init with
  | nil => rfl
  | cons a t ih =>
      rw [List.foldl_cons, ih, List.product_cons, List.foldl_append, List.foldl_map]

lemma foldl_guard_filter {α γ : Type} (l : List α) (p : α → Prop)
    [DecidablePred p] (f : γ → α → γ) (init : γ) :
    l.foldl (fun acc x => if p x then f acc x else acc) init =
      (l.filter fun x => decide (p x)).foldl f init := by
  induction l generalizing init with
  | nil => rfl
  | cons a t ih =>
      by_cases hp : p a
      · rw [List.foldl_cons, if_pos hp, List.filter_cons_of_pos (by simpa using hp),
          List.foldl_cons, ih]
      · rw [List.foldl_cons, if_neg hp, List.filter_cons_of_neg (by simpa using hp), ih]

lemma bb_eq_spec_fold (phys : Physics) (g : ℚ) (table : Table) (balls : List Ball) :
    get_min_ball_ball_event_time phys g table balls =
      (bbCandidatesSpec balls).foldl (bbStep phys g table) (⊤, []) := by
  unfold get_min_ball_ball_event_time bbCandidatesSpec
  rw [foldl_product]
  rw [← foldl_guard_filter (balls.enum ×ˢ balls.enum)
    (fun p => p.1.1 < p.2.1 ∧
      ¬(p.1.2.s = BState.stationary ∧ p.2.2.s = BState.stationary))
    (bbStep phys g table)]
  congr 1
  funext acc p
  by_cases h1 : p.2.1 ≤ p.1.1
  · rw [if_pos h1, if_neg (by simp [not_lt.mpr h1])]
  · rw [if_neg h1]
    by_cases h2 : p.1.2.s = BState.stationary ∧ p.2.2.s = BState.stationary
    · rw [if_pos h2, if_neg (by simp [h2])]
    · rw [if_neg h2]
      rw [if_pos (show p.1.1 < p.2.1 ∧
        ¬(p.1.2.s = BState.stationary ∧ p.2.2.s = BState.stationary) from
        ⟨not_le.mp h1, h2⟩)]
      rfl

lemma br_eq_spec_fold (phys : Physics) (g : ℚ) (table : Table) (balls : List Ball) :
    get_min_ball_rail_event_time phys g table balls =
      (brCandidatesSpec balls table.rails).foldl (brStep phys g table)
        (⊤, [Agent.nullA, Agent.nullA]) := by
  unfold get_min_ball_rail_event_time brCandidatesSpec
  rw [show (fun (acc0 : Time × List Agent) (ball : Ball) =>
      if ball.s = BState.stationary then acc0
      else
        table.rails.foldl
          (fun acc rail =>
            let tau := brTau phys g table ball rail
            if tau < acc.1 then (tau, [Agent.ball ball.id, Agent.rail rail.id]) else acc)
          acc0) =
    (fun acc0 ball =>
      if ¬ ball.s = BState.stationary then
        table.rails.foldl (fun acc rail => brStep phys g table acc (ball, rail)) acc0
      else acc0) from ?_]
  · rw [foldl_guard_filter balls (fun b => ¬ b.s = BState.stationary)
      (fun acc0 ball =>
        table.rails.foldl (fun acc rail => brStep phys g table acc (ball, rail)) acc0)]
    rw [foldl_product _ _ (fun acc b r => brStep phys g table acc (b, r))]
  · funext acc0 ball
    by_cases h : ball.s = BState.stationary
    · rw [if_pos h, if_neg (by simp [h])]
    · rw [if_neg h, if_pos h]
      rfl

/-- C6: the ball-ball generator is the running minimum over exactly the
pairs `i < j` that are not both stationary (each unordered pair once:
the candidate list is duplicate-free and index-ordered), and the ball-rail
generator is the running minimum over exactly the non-stationary balls paired
with every rail. -/
theorem generators_consider_exact_candidates (phys : Physics) (g : ℚ)
    (table : Table) (balls : List Ball) :
    (get_min_ball_ball_event_time phys g table balls =
      (bbCandidatesSpec balls).foldl (bbStep phys g table) (⊤, [])) ∧
    (∀ i j b1 b2, ((i, b1), (j, b2)) ∈ bbCandidatesSpec balls ↔
      balls.get? i = some b1 ∧ balls.get? j = some b2 ∧ i < j ∧
        ¬(b1.s = BState.stationary ∧ b2.s = BState.stationary)) ∧
    (bbCandidatesSpec balls).Nodup ∧
    (get_min_ball_rail_event_time phys g table balls =
      (brCandidatesSpec balls table.rails).foldl (brStep phys g table)
        (⊤, [Agent.nullA, Agent.nullA])) ∧
    (∀ b r, (b, r) ∈ brCandidatesSpec balls table.rails ↔
      b ∈ balls ∧ ¬ b.s = BState.stationary ∧ r ∈ table.rails) := by
  refine ⟨bb_eq_spec_fold phys g table balls, ?_, ?_,
    br_eq_spec_fold phys g table balls, ?_⟩
  · intro i j b1 b2
    unfold bbCandidatesSpec
    constructor
    · intro hmem
      rw [List.mem_filter] at hmem
      obtain ⟨hprod, hcond⟩ := hmem
      rw [List.mem_product] at hprod
      rw [decide_eq_true_eq] at hcond
      exact ⟨List.mem_enum_iff_get?.mp hprod.1, List.mem_enum_iff_get?.mp hprod.2,
        hcond.1, hcond.2⟩
    · rintro ⟨h1, h2, h3, h4⟩
      rw [List.mem_filter]
      refine ⟨List.mem_product.mpr
        ⟨List.mem_enum_iff_get?.mpr h1, List.mem_enum_iff_get?.mpr h2⟩, ?_⟩
      rw [decide_eq_true_eq]
      exact ⟨h3, h4⟩
  · have henum : balls.enum.Nodup :=
      List.Nodup.of_map Prod.fst (List.nodup_enum_map_fst balls)
    exact (henum.product henum).filter _
  · intro b r
    unfold brCandidatesSpec
    constructor
    · intro hmem
      rw [List.mem_product] at hmem
      obtain ⟨hb, hr⟩ := hmem
      rw [List.mem_filter, decide_eq_true_eq] at hb
      exact ⟨hb.1, hb.2, hr⟩
    · rintro ⟨h1, h2, h3⟩
      rw [List.mem_product]
      refine ⟨?_, h3⟩
      rw [List.mem_filter, decide_eq_true_eq]
      exact ⟨h1, h2⟩

/-- C6 witness: for two rolling balls and one rail, pair (0,1) is a
candidate, and the generators agree with the spec-side folds. -/
theorem generators_consider_exact_candidates_witness :
    ((0, (⟨0, 1, 1, BState.rolling, rvw0⟩ : Ball)),
      (1, (⟨1, 1, 1, BState.rolling, rvw0⟩ : Ball))) ∈ bbCandidatesSpec ballsW ∧
    get_min_ball_ball_event_time physW 1 tableW ballsW =
      (bbCandidatesSpec ballsW).foldl (bbStep physW 1 tableW) (⊤, []) := by
  have h := generators_consider_exact_candidates physW 1 tableW ballsW
  exact ⟨(h.2.1 0 1 _ _).mpr (by decide), h.1⟩

lemma evolve_samples_length (phys : Physics) (g : ℚ) (table : Table) (dt : Time)
    (event : Option Event) (balls : List Ball) (hist : Hist) :
    (evolve phys g table dt event balls hist).2.samples.length =
      hist.samples.length + 1 := by
  unfold evolve timestamp
  cases event <;> simp

lemma contEventLoop_zero (phys : Physics) (g : ℚ) (table : Table) (dt tau : ℚ)
    (dtp et : ℚ) (balls : List Ball) (hist : Hist) :
    contEventLoop phys g table dt tau 0 dtp et balls hist = (balls, hist, et) := rfl

lemma contEventLoop_succ (phys : Physics) (g : ℚ) (table : Table) (dt tau : ℚ)
    (fuel : ℕ) (dtp et : ℚ) (balls : List Ball) (hist : Hist) :
    contEventLoop phys g table dt tau (fuel + 1) dtp et balls hist =
      if et < tau - dtp then
        contEventLoop phys g table dt tau fuel dt (et + dtp)
          (evolve phys g table (dtp : ℚ) none balls hist).1
          (evolve phys g table (dtp : ℚ) none balls hist).2
      else (balls, hist, et) := rfl

lemma contEventLoop_tail (phys : Physics) (g : ℚ) (table : Table) (dt tau : ℚ)
    (hdt : 0 < dt) :
    ∀ (fuel : ℕ) (et : ℚ) (balls : List Ball) (hist : Hist), et < tau →
      tau - et ≤ fuel * dt + dt →
      ∃ (n : ℕ) (b : List Ball) (h : Hist),
        contEventLoop phys g table dt tau fuel dt et balls hist =
          (b, h, et + n * dt) ∧
        h.samples.length = hist.samples.length + n ∧
        tau - dt ≤ et + n * dt ∧ et + (n : ℚ) * dt < tau := by
  intro fuel
  induction fuel with
  | zero =>
      intro et balls hist hlt hle
      push_cast at hle
      refine ⟨0, balls, hist, by simp [contEventLoop_zero], by simp,
        by push_cast; linarith, by push_cast; linarith⟩
  | succ fuel ih =>
      intro et balls hist hlt hle
      push_cast at hle
      by_cases hcond : et < tau - dt
      · have hrec := ih (et + dt) (evolve phys g table (dt : ℚ) none balls hist).1
          (evolve phys g table (dt : ℚ) none balls hist).2
          (by linarith) (by push_cast; linarith)
        obtain ⟨n, b, h, heq, hlen, hge, hltn⟩ := hrec
        refine ⟨n + 1, b, h, ?_, ?_, ?_, ?_⟩
        · rw [contEventLoop_succ, if_pos hcond, heq]
          congr 1
          push_cast
          ring
        · rw [hlen, evolve_samples_length]
          ring
        · push_cast
          push_cast at hge
          linarith
        · push_cast
          push_cast at hltn
          linarith
      · refine ⟨0, balls, hist, ?_, by simp, by push_cast; linarith [not_lt.mp hcond],
          by push_cast; linarith⟩
        rw [contEventLoop_succ, if_neg hcond]
        simp

lemma contEventLoop_spec (phys : Physics) (g : ℚ) (table : Table) (dt tau : ℚ)
    (hdt : 0 < dt) (htau : dt < tau) (fuel : ℕ) (dtp : ℚ)
    (hfuel : tau + dt ≤ fuel * dt) (hdtp0 : 0 ≤ dtp) (hdtp1 : dtp ≤ dt)
    (balls : List Ball) (hist : Hist) :
    ∃ (n : ℕ) (b : List Ball) (h : Hist) (et : ℚ),
      contEventLoop phys g table dt tau fuel dtp 0 balls hist = (b, h, et) ∧
      h.samples.length = hist.samples.length + n ∧ 1 ≤ n ∧
      tau - dt ≤ et ∧ et < tau ∧ (n : ℚ) * dt = et + (dt - dtp) := by
  cases fuel with
  | zero =>
      exfalso
      push_cast at hfuel
      linarith
  | succ f =>
      push_cast at hfuel
      have htail := contEventLoop_tail phys g table dt tau hdt f (0 + dtp)
        (evolve phys g table (dtp : ℚ) none balls hist).1
        (evolve phys g table (dtp : ℚ) none balls hist).2
        (by linarith) (by linarith)
      obtain ⟨n, b, h, heq, hlen, hge, hlt⟩ := htail
      refine ⟨n + 1, b, h, 0 + dtp + n * dt, ?_, ?_, by omega, by linarith, by linarith, ?_⟩
      · rw [contEventLoop_succ, if_pos (by linarith), heq]
      · rw [hlen, evolve_samples_length]
        ring
      · push_cast
        ring

lemma contFor_nil (phys : Physics) (g : ℚ) (table : Table) (dt : ℚ) (fuel : ℕ)
    (old : List Sample) (dtp : ℚ) (balls : List Ball) (hist : Hist) :
    contFor phys g table dt fuel old [] dtp balls hist = (balls, hist) := rfl

lemma contFor_cons_none (phys : Physics) (g : ℚ) (table : Table) (dt : ℚ)
    (fuel : ℕ) (old : List Sample) (idx : ℕ) (t : Time) (snap : List Ball)
    (rest : List (ℕ × Sample)) (dtp : ℚ) (balls : List Ball) (hist : Hist) :
    contFor phys g table dt fuel old ((idx, (t, none, snap)) :: rest) dtp balls hist =
      contFor phys g table dt fuel old rest dtp balls hist := rfl

lemma contFor_cons_some (phys : Physics) (g : ℚ) (table : Table) (dt : ℚ)
    (fuel : ℕ) (old : List Sample) (idx : ℕ) (t : Time) (ev : Event)
    (snap : List Ball) (rest : List (ℕ × Sample)) (dtp : ℚ) (balls : List Ball)
    (hist : Hist) :
    contFor phys g table dt fuel old ((idx, (t, some ev, snap)) :: rest) dtp balls hist =
      if h : ev.tau = ⊤ then (balls, hist)
      else
        contFor phys g table dt fuel old rest
          (dt - (ev.tau.untop h -
            (contEventLoop phys g table dt (ev.tau.untop h) fuel dtp 0 balls hist).2.2))
          (set_table_state_via_history old idx
            (contEventLoop phys g table dt (ev.tau.untop h) fuel dtp 0 balls hist).1)
          (contEventLoop phys g table dt (ev.tau.untop h) fuel dtp 0 balls hist).2.1 := rfl

lemma snd_mem_enumFrom {α : Type} :
    ∀ (l : List α) (n : ℕ) (x : ℕ × α), x ∈ l.enumFrom n → x.2 ∈ l := by
  intro l
  induction l with
  | nil => intro n x hx; cases hx
  | cons a t ih =>
      intro n x hx
      rcases hx with _ | hx
      · exact List.mem_cons_self _ _
      · exact List.mem_cons_of_mem _ (ih (n + 1) x (by assumption))

lemma enumFrom_append' {α : Type} :
    ∀ (l1 l2 : List α) (n : ℕ),
      (l1 ++ l2).enumFrom n = l1.enumFrom n ++ l2.enumFrom (n + l1.length) := by
  intro l1
  induction l1 with
  | nil => intro l2 n; simp
  | cons a t ih =>
      intro l2 n
      simp only [List.cons_append, List.enumFrom, List.cons.injEq, true_and]
      rw [show t.append l2 = t ++ l2 from rfl, ih]
      congr 2
      simp [Nat.add_comm, Nat.add_assoc, Nat.add_left_comm]

lemma map_snd_enumFrom {α β : Type} (f : α → β) :
    ∀ (l : List α) (n : ℕ), (l.enumFrom n).map (fun x => f x.2) = l.map f := by
  intro l
  induction l with
  | nil => intro n; rfl
  | cons a t ih =>
      intro n
      simp only [List.enumFrom, List.map_cons]
      rw [ih]

lemma contFor_spec (phys : Physics) (g : ℚ) (table : Table) (dt : ℚ)
    (hdt : 0 < dt) (fuel : ℕ) (old : List Sample) :
    ∀ (l tail : List (ℕ × Sample)) (dtp : ℚ) (balls : List Ball) (hist : Hist),
      0 ≤ dtp → dtp ≤ dt →
      (∀ x ∈ l, ∃ (ev : Event) (q : ℚ), x.2.2.1 = some ev ∧ ev.tau = (q : Time) ∧
        dt < q ∧ q + dt ≤ fuel * dt) →
      TailStops tail →
      ∃ (dtp' : ℚ) (b : List Ball) (h : Hist),
        contFor phys g table dt fuel old (l ++ tail) dtp balls hist = (b, h) ∧
        0 ≤ dtp' ∧ dtp' ≤ dt ∧
        (h.samples.length : ℚ) * dt =
          (hist.samples.length : ℚ) * dt +
            (l.map (fun x => sampleTau x.2)).sum - dtp + dtp' := by
  intro l
  induction l with
  | nil =>
      intro tail dtp balls hist h0 h1 hl htail
      refine ⟨dtp, balls, hist, ?_, h0, h1, by simp⟩
      rcases htail with rfl | ⟨i, t, ev, snap, rest, rfl, hev⟩
      · rfl
      · rw [List.nil_append, contFor_cons_some, dif_pos hev]
  | cons x l' ih =>
      intro tail dtp balls hist h0 h1 hl htail
      obtain ⟨ev, q, hx1, hx2, hx3, hx4⟩ := hl x (List.mem_cons_self _ _)
      obtain ⟨idx, t, oev, snap⟩ := x
      have hoev : oev = some ev := hx1
      subst hoev
      have hne : ¬ ev.tau = ⊤ := by
        rw [hx2]
        exact WithTop.coe_ne_top
      have huntop : ev.tau.untop hne = q := by
        have hcoe : ((ev.tau.untop hne : ℚ) : Time) = ((q : ℚ) : Time) :=
          (WithTop.coe_untop _ hne).trans hx2
        exact_mod_cast hcoe
      rw [List.cons_append, contFor_cons_some, dif_neg hne]
      obtain ⟨n, b1, h1', et, heq, hlen, hn1, hge, hlt, hcount⟩ :=
        contEventLoop_spec phys g table dt (ev.tau.untop hne) hdt
          (by rw [huntop]; exact hx3) fuel dtp
          (by rw [huntop]; exact hx4) h0 h1 balls hist
      rw [heq]
      have hrec := ih tail (dt - (ev.tau.untop hne - et))
        (set_table_state_via_history old idx b1) h1'
        (by rw [huntop]; rw [huntop] at hlt; linarith)
        (by rw [huntop]; rw [huntop] at hge; linarith)
        (fun y hy => hl y (List.mem_cons_of_mem _ hy)) htail
      obtain ⟨dtp', b, h, heqf, hd0, hd1, hcnt⟩ := hrec
      refine ⟨dtp', b, h, heqf, hd0, hd1, ?_⟩
      rw [hcnt, hlen]
      have hst : sampleTau (t, some ev, snap) = q := by
        unfold sampleTau
        simp only
        rw [hx2]
        rfl
      rw [List.map_cons, List.sum_cons]
      simp only [hst]
      rw [huntop]
      push_cast
      push_cast at hcount
      linarith

lemma contEventLoop_tau_zero (phys : Physics) (g : ℚ) (table : Table) (dt : ℚ)
    (hdt : 0 < dt) (fuel : ℕ) (dtp : ℚ) (hdtp : 0 ≤ dtp) (balls : List Ball)
    (hist : Hist) :
    contEventLoop phys g table dt 0 fuel dtp 0 balls hist = (balls, hist, 0) := by
  cases fuel with
  | zero => rfl
  | succ f => rw [contEventLoop_succ, if_neg (by linarith)]

/-- C7 (amended): for a replayed history of the shape a run of `simulate`
produces — the initial null event of `tau = 0`, then events with finite
`tau`, each larger than the sampling step `dt` (and within the supplied
fuel), after which the history either simply ends (a time-bounded run) or
carries the infinite-`tau` terminal sample (a run to completion) — the
number of samples `continuize(dt)` produces satisfies `|count·dt − T| ≤ dt`,
where `T` is the sum of the events' `tau`s (the run's duration).  The
restriction `dt < tau` is forced by the counterexample: when events arrive
within one `dt` of each other, the leftover-step reset
`dt_prime = dt - (event.tau - event_time)` discards the pending grid
remainder and the bound fails. -/
theorem continuize_count_bound (phys : Physics) (g : ℚ) (table : Table)
    (dt : ℚ) (hdt : 0 < dt) (fuel : ℕ) (balls : List Ball)
    (t0 : Time) (snap0 : List Ball) (e0 : Event) (mid tail : List Sample)
    (h0tau : e0.tau = ((0 : ℚ) : Time))
    (htail : tail = [] ∨ ∃ (tl : Time) (el : Event) (snapl : List Ball)
      (rest : List Sample), tail = (tl, some el, snapl) :: rest ∧ el.tau = ⊤)
    (hmid : ∀ s ∈ mid, ∃ (ev : Event) (q : ℚ), s.2.1 = some ev ∧
      ev.tau = (q : Time) ∧ dt < q ∧ q + dt ≤ fuel * dt) :
    |((continuize phys g table dt fuel
        ((t0, some e0, snap0) :: mid ++ tail) balls).2.samples.length : ℚ)
        * dt - (mid.map sampleTau).sum| ≤ dt := by
  have hne0 : ¬ e0.tau = ⊤ := by
    rw [h0tau]
    exact WithTop.coe_ne_top
  have hzero : e0.tau.untop hne0 = 0 := by
    have hcoe : ((e0.tau.untop hne0 : ℚ) : Time) = (((0 : ℚ) : ℚ) : Time) :=
      (WithTop.coe_untop _ hne0).trans h0tau
    exact_mod_cast hcoe
  have key : ∀ ballsA : List Ball,
      (continuize phys g table dt fuel
        ((t0, some e0, snap0) :: mid ++ tail) ballsA).2.samples =
      (contFor phys g table dt fuel
        ((t0, some e0, snap0) :: mid ++ tail)
        (((t0, some e0, snap0) :: mid ++ tail).enum) dt
        (set_table_state_via_history
          ((t0, some e0, snap0) :: mid ++ tail) 0 ballsA)
        (timestamp 0 none
          (set_table_state_via_history
            ((t0, some e0, snap0) :: mid ++ tail) 0 ballsA)
          resetHistory)).2.samples := fun _ => rfl
  rw [key]
  have henum : (((t0, some e0, snap0) :: mid ++ tail)).enum =
      (0, (t0, some e0, snap0)) ::
        (mid.enumFrom 1 ++ tail.enumFrom (1 + mid.length)) := by
    show (0, (t0, some e0, snap0)) :: ((mid ++ tail)).enumFrom 1 =
      (0, (t0, some e0, snap0)) ::
        (mid.enumFrom 1 ++ tail.enumFrom (1 + mid.length))
    rw [enumFrom_append']
  rw [henum, contFor_cons_some, dif_neg hne0]
  rw [hzero]
  rw [contEventLoop_tau_zero phys g table dt hdt fuel dt (le_of_lt hdt)]
  simp only
  rw [show dt - ((0 : ℚ) - 0) = dt by ring]
  have htl : TailStops (tail.enumFrom (1 + mid.length)) := by
    rcases htail with rfl | ⟨tl, el, snapl, rest, rfl, hev⟩
    · exact Or.inl rfl
    · exact Or.inr ⟨1 + mid.length, tl, el, snapl,
        rest.enumFrom (1 + mid.length + 1), rfl, hev⟩
  have hspec := contFor_spec phys g table dt hdt fuel
    ((t0, some e0, snap0) :: mid ++ tail)
    (mid.enumFrom 1) (tail.enumFrom (1 + mid.length)) dt
    (set_table_state_via_history
      ((t0, some e0, snap0) :: mid ++ tail) 0
      (set_table_state_via_history
        ((t0, some e0, snap0) :: mid ++ tail) 0 balls))
    (timestamp 0 none
      (set_table_state_via_history
        ((t0, some e0, snap0) :: mid ++ tail) 0 balls)
      resetHistory)
    (le_of_lt hdt) (le_refl dt)
    (fun x hx => hmid x.2 (snd_mem_enumFrom mid 1 x hx))
    htl
  obtain ⟨dtp', b, h, heqf, hd0, hd1, hcnt⟩ := hspec
  rw [heqf]
  have hmap : ((mid.enumFrom 1).map (fun x => sampleTau x.2)).sum =
      (mid.map sampleTau).sum := by
    rw [map_snd_enumFrom sampleTau mid 1]
  have hlen1 : (timestamp 0 none
      (set_table_state_via_history
        ((t0, some e0, snap0) :: mid ++ tail) 0 balls)
      resetHistory).samples.length = 1 := rfl
  rw [hlen1, hmap] at hcnt
  rw [abs_le]
  constructor
  · push_cast at hcnt
    linarith
  · push_cast at hcnt
    linarith

/-- C7 witness: a bounded-run-shaped history (no terminal infinite-`tau`
sample) with one event of `tau = 2` replayed at `dt = 1`; the sample-count
bound holds. -/
theorem continuize_count_bound_witness :
    |((continuize physW 1 tableE 1 3
        ((0, some ⟨none, [], ((0 : ℚ) : Time)⟩, []) ::
          [((0 : Time), some (⟨some EventType.endRoll, [Agent.ball 0],
            ((2 : ℚ) : Time)⟩ : Event), ([] : List Ball))] ++
          ([] : List Sample)) []).2.samples.length : ℚ) * 1 -
      ([((0 : Time), some (⟨some EventType.endRoll, [Agent.ball 0],
        ((2 : ℚ) : Time)⟩ : Event), ([] : List Ball))].map sampleTau).sum| ≤ 1 := by
  have h := continuize_count_bound physW 1 tableE 1 (by norm_num) 3 []
    0 [] ⟨none, [], ((0 : ℚ) : Time)⟩
    [((0 : Time), some (⟨some EventType.endRoll, [Agent.ball 0],
      ((2 : ℚ) : Time)⟩ : Event), ([] : List Ball))]
    ([] : List Sample)
    rfl (Or.inl rfl) ?_
  · exact h
  · intro s hs
    rcases List.mem_singleton.mp hs with rfl
    exact ⟨⟨some EventType.endRoll, [Agent.ball 0], ((2 : ℚ) : Time)⟩, 2,
      rfl, rfl, by norm_num, by norm_num⟩

set_option maxRecDepth 100000 in
/-- C7 counterexample: a genuine bounded run (five end-roll events 1/4 s
apart, stopped by the time bound at 5/4 s) replayed at `dt = 1/2` produces a
single sample, so `|count·dt − T| = 3/4 > dt`: the claim as stated fails when
events arrive within one `dt` of each other. -/
theorem continuize_count_bound_cex :
    (simulate physC7 1 tableE (some (5 / 4)) 10 ballsC7).2.time =
      ((5 / 4 : ℚ) : Time) ∧
    (simulate physC7 1 tableE (some (5 / 4)) 10 ballsC7).2.samples.length = 6 ∧
    ¬ (|((continuize physC7 1 tableE (1 / 2) 10
          (simulate physC7 1 tableE (some (5 / 4)) 10 ballsC7).2.samples
          ballsC7).2.samples.length : ℚ) * (1 / 2) - (5 / 4)| ≤ (1 / 2)) :=
  of_decide_eq_true (by with_unfolding_all rfl)

set_option maxRecDepth 100000 in
/-- C3 (code bug): `continuize` sets the live balls to each event's resolved
state (`set_table_state_via_history`) but never calls `timestamp` afterwards
— unlike the initial state, which is set *and* logged — so the fixed-step
history contains no sample at the event's absolute time and no sample whose
per-ball state equals the event-resolved state.  Evaluated here on a
one-ball run with a single event at `tau = 3/100` and `dt = 1/20`. -/
theorem continuize_misses_event_sample :
    ((simulate physC3 1 tableE (some (3 / 100)) 10 ballsC7).2.samples.length = 2 ∧
      (continuize physC3 1 tableE (1 / 20) 10
        (simulate physC3 1 tableE (some (3 / 100)) 10 ballsC7).2.samples
        ballsC7).2.samples.length = 1) ∧
    (∀ samp ∈ (continuize physC3 1 tableE (1 / 20) 10
        (simulate physC3 1 tableE (some (3 / 100)) 10 ballsC7).2.samples
        ballsC7).2.samples,
      ¬ (samp.1 = ((3 / 100 : ℚ) : Time)) ∧
      ¬ (samp.2.2 =
        ((simulate physC3 1 tableE (some (3 / 100)) 10 ballsC7).2.samples.getD 1
          (0, none, [])).2.2)) :=
  of_decide_eq_true (by with_unfolding_all rfl)

lemma unit_vector_planar (a b : ℝ) (h : 0 < a ^ 2 + b ^ 2) :
    (unit_vector (a, b, 0)).1 ^ 2 + (unit_vector (a, b, 0)).2.1 ^ 2 +
      (unit_vector (a, b, 0)).2.2 ^ 2 = 1 ∧
    (unit_vector (a, b, 0)).2.2 = 0 ∧
    ∃ k : ℝ, 0 < k ∧ unit_vector (a, b, 0) = (k * a, k * b, k * 0) := by
  unfold unit_vector
  have hz : a ^ 2 + b ^ 2 + 0 ^ 2 = a ^ 2 + b ^ 2 := by ring
  have hn : 0 < Real.sqrt (a ^ 2 + b ^ 2 + 0 ^ 2) := by
    rw [hz]; exact Real.sqrt_pos.mpr h
  have hsq : Real.sqrt (a ^ 2 + b ^ 2 + 0 ^ 2) ^ 2 = a ^ 2 + b ^ 2 + 0 ^ 2 :=
    Real.sq_sqrt (by positivity)
  refine ⟨?_, by simp, (Real.sqrt (a ^ 2 + b ^ 2 + 0 ^ 2))⁻¹,
    inv_pos.mpr hn, by simp [div_eq_inv_mul, mul_comm]⟩
  have expand : (a / Real.sqrt (a ^ 2 + b ^ 2 + 0 ^ 2)) ^ 2 +
      (b / Real.sqrt (a ^ 2 + b ^ 2 + 0 ^ 2)) ^ 2 +
      ((0 : ℝ) / Real.sqrt (a ^ 2 + b ^ 2 + 0 ^ 2)) ^ 2 =
      (a ^ 2 + b ^ 2 + 0 ^ 2) / Real.sqrt (a ^ 2 + b ^ 2 + 0 ^ 2) ^ 2 := by
    ring
  simp only [expand, hsq]
  exact div_self (by rw [hz]; exact ne_of_gt h)

/-- C10: for every successfully constructed cushion, the line coefficients
vanish at both boundary points, and the derived normal is a unit vector with
zero z component that is a positive multiple of `(lx, ly, 0)`. -/
theorem cushion_line_and_normal (id : ℕ) (p1 p2 : Vec3) (c : Cushion)
    (h : Cushion.make id p1 p2 = some c) :
    c.lx * p1.x + c.ly * p1.y + c.l0 = 0 ∧
    c.lx * p2.x + c.ly * p2.y + c.l0 = 0 ∧
    c.normalVec.1 ^ 2 + c.normalVec.2.1 ^ 2 + c.normalVec.2.2 ^ 2 = 1 ∧
    c.normalVec.2.2 = 0 ∧
    ∃ k : ℝ, 0 < k ∧
      c.normalVec = (k * (c.lx : ℝ), k * (c.ly : ℝ), k * (0 : ℝ)) := by
  unfold Cushion.make at h
  by_cases hz : p1.z = p2.z
  · simp only [hz, ne_eq, not_true_eq_false, if_false, ite_not] at h
    split at h
    · rw [Option.some_inj] at h
      subst h
      rename_i hx
      have hx' : p2.x = p1.x := by linarith [sub_eq_zero.mp hx]
      refine ⟨by ring, by rw [hx']; ring, ?_⟩
      have := unit_vector_planar ((1 : ℚ) : ℝ) ((0 : ℚ) : ℝ) (by norm_num)
      simpa [Cushion.normalVec] using this
    · rw [Option.some_inj] at h
      subst h
      rename_i hx
      constructor
      · field_simp
        ring
      constructor
      · field_simp
        ring
      · have hpos : (0 : ℝ) <
            ((-(p2.y - p1.y) / (p2.x - p1.x) : ℚ) : ℝ) ^ 2 + ((1 : ℚ) : ℝ) ^ 2 := by
          push_cast
          positivity
        have := unit_vector_planar _ _ hpos
        simpa [Cushion.normalVec] using this
  · simp [hz] at h

/-- C10 witness: the properties hold at the concrete cushion built from
`(0,0,0)` and `(2,1,0)`. -/
theorem cushion_line_and_normal_witness :
    ∃ c : Cushion, Cushion.make 7 ⟨0, 0, 0⟩ ⟨2, 1, 0⟩ = some c ∧
      (c.lx * 0 + c.ly * 0 + c.l0 = 0 ∧
       c.lx * 2 + c.ly * 1 + c.l0 = 0 ∧
       c.normalVec.1 ^ 2 + c.normalVec.2.1 ^ 2 + c.normalVec.2.2 ^ 2 = 1 ∧
       c.normalVec.2.2 = 0 ∧
       ∃ k : ℝ, 0 < k ∧
         c.normalVec = (k * (c.lx : ℝ), k * (c.ly : ℝ), k * (0 : ℝ))) := by
  refine ⟨_, rfl, ?_⟩
  have h := cushion_line_and_normal 7 ⟨0, 0, 0⟩ ⟨2, 1, 0⟩ _ rfl
  simpa using h

/-- C8 witness: at concrete points of equal height construction succeeds with
that height, and at points of unequal height it fails. -/
theorem cushion_construction_height_witness :
    ((Cushion.make 0 ⟨0, 0, 5⟩ ⟨2, 3, 5⟩).isSome ↔ (5 : ℚ) = 5) ∧
    (∀ c : Cushion, Cushion.make 0 ⟨0, 0, 5⟩ ⟨2, 3, 5⟩ = some c →
      c.height = 5 ∧ c.height = 5) ∧
    ¬ (Cushion.make 0 ⟨0, 0, 1⟩ ⟨2, 3, 5⟩).isSome := by
  refine ⟨(cushion_construction_height 0 ⟨0, 0, 5⟩ ⟨2, 3, 5⟩).1,
    (cushion_construction_height 0 ⟨0, 0, 5⟩ ⟨2, 3, 5⟩).2, ?_⟩
  have h := (cushion_construction_height 0 ⟨0, 0, 1⟩ ⟨2, 3, 5⟩).1
  intro hs
  exact absurd (h.mp hs) (by decide)
